import Mathlib

/-!
Formal model of the contract-analysis backend: clause splitter, violation
rule engine, deviation engine, risk scorer and explanation composer,
translated from the Python sources (`clause_splitter.py`, `rule_engine.py`,
`deviation_engine.py`, `risk_score.py`, `explanation.py`, `config.py`).
Clause text is modelled as `List Char`; Python machine floats are modelled
as exact rationals (`ℚ`), with `round(x, 2)` modelled as rounding the exact
value to the nearest multiple of 1/100.  Regular-expression scans used by
the engines are modelled by explicit scanners shown below, matching the
leftmost-first, non-overlapping semantics of `re.findall`.
-/

namespace Contract

/-! ### Basic character and substring utilities -/

/-- ASCII lower-casing of one character, as Python `str.lower` acts on the
ASCII range used by the detectors' keyword lists (`Char.toLower` performs
exactly this basic-latin mapping). -/
def lowerChar (c : Char) : Char := c.toLower

/-- `str.lower()` over the whole clause text. -/
def lower (s : List Char) : List Char := s.map lowerChar

/-- Shorthand turning a string literal into the character-list representation. -/
def lit (s : String) : List Char := s.toList

/-- Does `hay` start with `needle`? -/
def startsWith : List Char → List Char → Bool
  | [], _ => true
  | _ :: _, [] => false
  | n :: ns, h :: hs => n == h && startsWith ns hs

/-- Python's substring test `needle in hay`. -/
def hasSub (needle : List Char) : List Char → Bool
  | [] => needle.isEmpty
  | c :: hs => startsWith needle (c :: hs) || hasSub needle hs

theorem startsWith_iff (n h : List Char) : startsWith n h = true ↔ n <+: h := by
  induction n generalizing h with
  | nil => simp [startsWith]
  | cons a as ih =>
    cases h with
    | nil => simp [startsWith]
    | cons b bs =>
      simp only [startsWith, Bool.and_eq_true, beq_iff_eq, ih, List.cons_prefix_cons]

theorem hasSub_iff (n h : List Char) : hasSub n h = true ↔ n <:+: h := by
  induction h with
  | nil => simp [hasSub, List.isEmpty_iff]
  | cons c hs ih =>
    simp only [hasSub, Bool.or_eq_true, startsWith_iff, ih, List.infix_cons_iff]

/-- Characters of an infix occur in the host list. -/
theorem mem_of_infix {n h : List Char} (hi : n <:+: h) {c : Char} (hc : c ∈ n) :
    c ∈ h := hi.subset hc

theorem toNat_ofNat_valid {n : Nat} (h : n.isValidChar) : (Char.ofNat n).toNat = n := by
  simp [Char.ofNat, h, Char.ofNatAux, Char.toNat, UInt32.toNat]

theorem toLower_eq (c : Char) :
    Char.toLower c = if c.toNat ≥ 65 ∧ c.toNat ≤ 90 then Char.ofNat (c.toNat + 32) else c :=
  rfl

theorem lowerChar_ne_A (c : Char) : lowerChar c ≠ 'A' := by
  unfold lowerChar
  rw [toLower_eq]
  intro hc
  by_cases hrange : c.toNat ≥ 65 ∧ c.toNat ≤ 90
  · rw [if_pos hrange] at hc
    have hv : (c.toNat + 32).isValidChar := Or.inl (by omega)
    have hval := congrArg Char.toNat hc
    rw [toNat_ofNat_valid hv] at hval
    have hA : ('A' : Char).toNat = 65 := by decide
    omega
  · rw [if_neg hrange] at hc
    subst hc
    exact hrange ⟨by decide, by decide⟩

/-- `lower` never produces the character `'A'`. -/
theorem lower_no_upper_A (s : List Char) : 'A' ∉ lower s := by
  intro hmem
  simp only [lower, List.mem_map] at hmem
  obtain ⟨c, _, hc⟩ := hmem
  exact lowerChar_ne_A c hc

/-! ### Numeric extraction (the `re.findall` patterns of the engines)

Each engine pattern has the shape `(\d+)\s*(?:ALT₁|ALT₂|…)`: a non-empty
digit run, optional whitespace, then one of an ordered list of literal
alternatives.  Greedy matching with these alternatives never needs to
backtrack into the digit or space runs (no alternative begins with a digit
or a space), so maximal-munch scanning is faithful. -/

def isDigitC (c : Char) : Bool := '0' ≤ c && c ≤ '9'

/-- Python `\s` on the ASCII range. -/
def isSpaceC (c : Char) : Bool :=
  c == ' ' || c == '\t' || c == '\n' || c == '\r' || c == '\x0b' || c == '\x0c'

/-- Split off the maximal leading run of characters satisfying `p`. -/
def takeRun (p : Char → Bool) : List Char → List Char × List Char
  | [] => ([], [])
  | c :: cs =>
    if p c then
      let r := takeRun p cs
      (c :: r.1, r.2)
    else ([], c :: cs)

theorem takeRun_append (p : Char → Bool) (l : List Char) :
    (takeRun p l).1 ++ (takeRun p l).2 = l := by
  induction l with
  | nil => rfl
  | cons c cs ih =>
    by_cases h : p c = true
    · simp [takeRun, h, ih]
    · simp [takeRun, h]

theorem takeRun_snd_le (p : Char → Bool) (l : List Char) :
    (takeRun p l).2.length ≤ l.length := by
  conv_rhs => rw [← takeRun_append p l]
  simp

/-- Match a literal at the front, returning the remainder on success. -/
def matchLit : List Char → List Char → Option (List Char)
  | [], rest => some rest
  | _ :: _, [] => none
  | a :: as, c :: cs => if a == c then matchLit as cs else none

/-- Try an ordered list of literal alternatives, first success wins
(regex alternation order). -/
def matchAlts : List (List Char) → List Char → Option (List Char)
  | [], _ => none
  | a :: as, input =>
    match matchLit a input with
    | some rest => some rest
    | none => matchAlts as input

theorem matchLit_length : ∀ (a input rest : List Char),
    matchLit a input = some rest → rest.length ≤ input.length := by
  intro a
  induction a with
  | nil => intro input rest h; simp [matchLit] at h; simp [h]
  | cons x xs ih =>
    intro input rest h
    cases input with
    | nil => simp [matchLit] at h
    | cons c cs =>
      simp only [matchLit] at h
      split at h
      · exact Nat.le_trans (ih cs rest h) (Nat.le_succ _)
      · exact absurd h (by simp)

theorem matchAlts_length : ∀ (alts : List (List Char)) (input rest : List Char),
    matchAlts alts input = some rest → rest.length ≤ input.length := by
  intro alts
  induction alts with
  | nil => intro input rest h; simp [matchAlts] at h
  | cons a as ih =>
    intro input rest h
    simp only [matchAlts] at h
    cases hm : matchLit a input with
    | some r => rw [hm] at h; cases h; exact matchLit_length a input rest hm
    | none => rw [hm] at h; exact ih input rest h

/-- Python `int` of a digit group. -/
def digitsToNat (d : List Char) : Nat :=
  d.foldl (fun n c => n * 10 + (c.toNat - 48)) 0

/-- Try pattern `(\d+)\s*(?:alts)` anchored at the head of `l`; on success
return the numeric value of the group and the text after the match. -/
def tryNumUnit (alts : List (List Char)) (l : List Char) : Option (Nat × List Char) :=
  if (takeRun isDigitC l).1.isEmpty then none
  else
    match matchAlts alts (takeRun isSpaceC (takeRun isDigitC l).2).2 with
    | some rest => some (digitsToNat (takeRun isDigitC l).1, rest)
    | none => none

theorem tryNumUnit_rest_lt (alts : List (List Char)) (l : List Char)
    (vr : Nat × List Char) (h : tryNumUnit alts l = some vr) :
    vr.2.length < l.length := by
  unfold tryNumUnit at h
  split at h
  · exact absurd h (by simp)
  · rename_i hne
    split at h
    · rename_i r hm
      have hr : vr.2 = r := by
        simp only [Option.some.injEq] at h
        rw [← h]
      have h1 : r.length ≤ (takeRun isSpaceC (takeRun isDigitC l).2).2.length :=
        matchAlts_length _ _ _ hm
      have h2 : (takeRun isSpaceC (takeRun isDigitC l).2).2.length ≤
          (takeRun isDigitC l).2.length := takeRun_snd_le _ _
      have h3 : (takeRun isDigitC l).1.length + (takeRun isDigitC l).2.length
          = l.length := by
        conv_rhs => rw [← takeRun_append isDigitC l]
        simp
      have h4 : 0 < (takeRun isDigitC l).1.length := by
        cases hd : (takeRun isDigitC l).1 with
        | nil => rw [hd] at hne; simp at hne
        | cons x xs => simp [hd]
      rw [hr]
      omega
    · exact absurd h (by simp)

/-- Scan body of `re.findall`, structurally recursive on a fuel argument so
that it evaluates by kernel reduction.  On a successful match the scan
resumes after the matched text, otherwise one character further; either
way at least one character is consumed per step (`tryNumUnit_rest_lt`), so
fuel `l.length` never runs out on the initial call. -/
def findallAux (alts : List (List Char)) : Nat → List Char → List Nat
  | _, [] => []
  | 0, _ :: _ => []
  | fuel + 1, c :: cs =>
    match tryNumUnit alts (c :: cs) with
    | some vr => vr.1 :: findallAux alts fuel vr.2
    | none => findallAux alts fuel cs

/-- `re.findall` for pattern `(\d+)\s*(?:alts)`: leftmost-first,
non-overlapping scan, returning the numeric group values in order. -/
def findallNumUnit (alts : List (List Char)) (l : List Char) : List Nat :=
  findallAux alts l.length l

/-- The fuel given to `findallAux` by `findallNumUnit` is sufficient: with
at least `l.length` fuel the scan never hits the artificial fuel cutoff,
so `findallNumUnit` computes the full non-overlapping match list. -/
theorem findallAux_fuel (alts : List (List Char)) :
    ∀ (f g : Nat) (l : List Char), l.length ≤ f → l.length ≤ g →
      findallAux alts f l = findallAux alts g l := by
  intro f
  induction f with
  | zero =>
    intro g l hf _
    cases l with
    | nil => cases g <;> rfl
    | cons c cs => simp at hf
  | succ f ih =>
    intro g l hf hg
    cases l with
    | nil => cases g <;> rfl
    | cons c cs =>
      cases g with
      | zero => simp at hg
      | succ g =>
        simp only [findallAux]
        cases h : tryNumUnit alts (c :: cs) with
        | some vr =>
          have hlt := tryNumUnit_rest_lt alts (c :: cs) vr h
          simp only [List.length_cons] at hf hg hlt
          dsimp only
          rw [ih g vr.2 (by omega) (by omega)]
        | none =>
          simp only [List.length_cons] at hf hg
          dsimp only
          rw [ih g cs (by omega) (by omega)]

/-- Alternatives of the percentage pattern `(\d+)\s*(?:%|percent)`. -/
def pctAlts : List (List Char) := [lit "%", lit "percent"]

/-- Alternatives of `(\d+)\s*(?:lakh|crore|rupees|rs\.?|inr)`
(`rule_engine.check_section_74`); the optional dot of `rs\.?` expands to
the two alternatives `rs.` then `rs`, in greedy order. -/
def amountAlts : List (List Char) :=
  [lit "lakh", lit "crore", lit "rupees", lit "rs.", lit "rs", lit "inr"]

/-- Alternatives of `(\d+)\s*(?:lakh|lakhs)` (`check_penalty_deviation`). -/
def lakhAlts : List (List Char) := [lit "lakh", lit "lakhs"]

/-- Alternatives of `(\d+)\s*months?`, greedy order. -/
def monthAlts : List (List Char) := [lit "months", lit "month"]

/-- Alternatives of `(\d+)\s*years?`. -/
def yearAlts : List (List Char) := [lit "years", lit "year"]

/-- Alternatives of `(\d+)\s*days?`. -/
def dayAlts : List (List Char) := [lit "days", lit "day"]

/-! ### Rounding (`round(x, 2)`)

Python's `round(x, 2)` on binary floats is modelled as rounding the exact
rational value to the nearest multiple of 1/100. -/

def round2 (q : ℚ) : ℚ := (round (q * 100) : ℤ) / 100

theorem round2_mono {a b : ℚ} (h : a ≤ b) : round2 a ≤ round2 b := by
  unfold round2
  have hr : round (a * 100) ≤ round (b * 100) := by
    rw [round_eq, round_eq]
    exact Int.floor_le_floor (by linarith)
  have : ((round (a * 100) : ℤ) : ℚ) ≤ ((round (b * 100) : ℤ) : ℚ) := by
    exact_mod_cast hr
  linarith

theorem round2_zero : round2 0 = 0 := by
  unfold round2
  norm_num

theorem round2_hundred : round2 100 = 100 := by
  unfold round2
  have : ((100 : ℚ) * 100) = ((10000 : ℤ) : ℚ) := by norm_num
  rw [this, round_intCast]
  norm_num

theorem round2_nonneg {q : ℚ} (h : 0 ≤ q) : 0 ≤ round2 q := by
  have := round2_mono h
  rwa [round2_zero] at this

theorem round2_le_hundred {q : ℚ} (h : q ≤ 100) : round2 q ≤ 100 := by
  have := round2_mono h
  rwa [round2_hundred] at this

/-! ### Data model

Finding records mirror the dictionaries produced by `rule_engine.py` and
`deviation_engine.py`.  The `law` key is absent from the dictionaries built
by `check_clarity`, hence an `Option`; `recommendation` is read with
`.get` and tested for truthiness, which for the string values used is
emptiness, hence a plain string field tested with `isEmpty`. -/

structure Violation where
  type : String
  severity : String
  law : Option String
  description : String
  recommendation : String
deriving DecidableEq

/-- Result dictionary of `rule_engine.verify_clause`. -/
structure LegalResult where
  is_valid : Bool
  violations : List Violation
  risk_level : String
  applicable_sections : List String
  total_violations : Nat
deriving DecidableEq

structure Deviation where
  type : String
  severity : String
  actual : String
  fair_standard : String
  description : String
deriving DecidableEq

/-- Result dictionary of `deviation_engine.check_deviation`. -/
structure DevResult where
  has_deviation : Bool
  deviations : List Deviation
  severity : String
  total_deviations : Nat
deriving DecidableEq

/-! ### `config.py` -/

/-- `config.RISK_WEIGHTS` (legal 50%, deviation 30%, frequency 20%). -/
def RISK_WEIGHTS (k : String) : ℚ :=
  if k = "legal_invalidity" then 1/2
  else if k = "deviation_severity" then 3/10
  else if k = "frequency_factor" then 1/5
  else 0

/-- `config.SEVERITY_SCORES`, read through `.get(violation_type, 0)`. -/
def SEVERITY_SCORES (t : String) : ℚ :=
  if t = "section_27_violation" then 90
  else if t = "section_23_violation" then 95
  else if t = "section_74_violation" then 70
  else if t = "ip_overreach" then 60
  else if t = "unclear_terms" then 40
  else if t = "no_violation" then 0
  else 0

def MIN_CLAUSE_LENGTH : Nat := 30

def MAX_CLAUSE_LENGTH : Nat := 2000

/-! ### `risk_score.py` -/

/-- `calculate_legal_invalidity_score`: maximum per-type severity score,
boosted by 1.2 (capped at 100) when more than one violation has critical
severity; 0 when the violation list is empty. -/
def calculate_legal_invalidity_score (legal_check : LegalResult) : ℚ :=
  if legal_check.violations.isEmpty then 0
  else if 1 < legal_check.violations.countP (fun v => v.severity == "critical") then
    min 100 (legal_check.violations.foldl (fun m v => max m (SEVERITY_SCORES v.type)) 0 * (6/5))
  else legal_check.violations.foldl (fun m v => max m (SEVERITY_SCORES v.type)) 0

/-- `severity_points` table local to `calculate_deviation_score`; unknown
severities score 0 (`.get(severity, 0)`). -/
def severity_points (s : String) : ℚ :=
  if s = "critical" then 30
  else if s = "high" then 20
  else if s = "medium" then 12
  else if s = "low" then 5
  else 0

/-- `calculate_deviation_score`: sum of per-severity points over all
deviations, capped at 100; 0 when `has_deviation` is false. -/
def calculate_deviation_score (deviation : DevResult) : ℚ :=
  if !deviation.has_deviation then 0
  else
    min (deviation.deviations.foldl (fun t d => t + severity_points d.severity) 0) 100

/-- `calculate_frequency_score`: `min(total_issues * 20, 100)`, counting
both violations and deviations (the Python truthiness guards on the lists
are the `isEmpty` tests). -/
def calculate_frequency_score (legal_check : LegalResult) (deviation : DevResult) : ℚ :=
  min ((((if legal_check.violations.isEmpty then 0 else legal_check.violations.length) +
         (if deviation.deviations.isEmpty then 0 else deviation.deviations.length) : Nat) : ℚ)
        * 20) 100

/-- `calculate_risk_score`: weighted combination of the three sub-scores,
clamped to [0, 100] and rounded to 2 decimals. -/
def calculate_risk_score (legal_check : LegalResult) (deviation : DevResult) : ℚ :=
  round2 (max 0 (min 100
    (calculate_legal_invalidity_score legal_check * RISK_WEIGHTS "legal_invalidity" +
     calculate_deviation_score deviation * RISK_WEIGHTS "deviation_severity" +
     calculate_frequency_score legal_check deviation * RISK_WEIGHTS "frequency_factor")))

/-- `get_risk_level`: fixed score-range thresholds. -/
def get_risk_level (risk_score : ℚ) : String :=
  if 85 ≤ risk_score then "critical"
  else if 60 ≤ risk_score then "high"
  else if 30 ≤ risk_score then "medium"
  else "low"

/-- A `verify_clause`-shaped record holding a given violation list (the
fields other than `violations` are not read by the risk scorer). -/
def mkLegal (vs : List Violation) : LegalResult :=
  { is_valid := true, violations := vs, risk_level := "", applicable_sections := [],
    total_violations := vs.length }

/-- A `check_deviation`-shaped record holding a given deviation list
(`has_deviation` is the list's non-emptiness, as `check_deviation` sets it). -/
def mkDev (ds : List Deviation) : DevResult :=
  { has_deviation := !ds.isEmpty, deviations := ds, severity := "",
    total_deviations := ds.length }

/-! ### Risk scorer lemmas -/

theorem SEVERITY_SCORES_nonneg (t : String) : 0 ≤ SEVERITY_SCORES t := by
  unfold SEVERITY_SCORES
  split_ifs <;> norm_num

theorem SEVERITY_SCORES_le (t : String) : SEVERITY_SCORES t ≤ 95 := by
  unfold SEVERITY_SCORES
  split_ifs <;> norm_num

theorem severity_points_nonneg (s : String) : 0 ≤ severity_points s := by
  unfold severity_points
  split_ifs <;> norm_num

theorem foldl_max_le_init (g : Violation → ℚ) (vs : List Violation) :
    ∀ a : ℚ, a ≤ vs.foldl (fun m v => max m (g v)) a := by
  induction vs with
  | nil => intro a; exact le_refl a
  | cons v vs ih =>
    intro a
    exact le_trans (le_max_left a (g v)) (ih (max a (g v)))

theorem foldl_max_le_bound (g : Violation → ℚ) (c : ℚ) (hg : ∀ v, g v ≤ c)
    (vs : List Violation) : ∀ a : ℚ, a ≤ c → vs.foldl (fun m v => max m (g v)) a ≤ c := by
  induction vs with
  | nil => intro a ha; exact ha
  | cons v vs ih =>
    intro a ha
    exact ih (max a (g v)) (max_le ha (hg v))

theorem foldl_max_append (g : Violation → ℚ) (vs : List Violation) (v : Violation) (a : ℚ) :
    (vs ++ [v]).foldl (fun m w => max m (g w)) a
      = max (vs.foldl (fun m w => max m (g w)) a) (g v) := by
  rw [List.foldl_append]
  rfl

theorem foldl_add_nonneg (ds : List Deviation) :
    ∀ a : ℚ, 0 ≤ a → 0 ≤ ds.foldl (fun t d => t + severity_points d.severity) a := by
  induction ds with
  | nil => intro a ha; exact ha
  | cons d ds ih =>
    intro a ha
    exact ih _ (add_nonneg ha (severity_points_nonneg d.severity))

theorem foldl_add_append (ds : List Deviation) (d : Deviation) (a : ℚ) :
    (ds ++ [d]).foldl (fun t e => t + severity_points e.severity) a
      = ds.foldl (fun t e => t + severity_points e.severity) a + severity_points d.severity := by
  rw [List.foldl_append]
  rfl

theorem legal_invalidity_nonneg (L : LegalResult) :
    0 ≤ calculate_legal_invalidity_score L := by
  unfold calculate_legal_invalidity_score
  split_ifs with h1 h2
  · exact le_refl 0
  · refine le_min_iff.mpr ⟨by norm_num, ?_⟩
    have h := foldl_max_le_init (fun v => SEVERITY_SCORES v.type) L.violations 0
    nlinarith
  · exact foldl_max_le_init _ _ 0

theorem legal_invalidity_le_100 (L : LegalResult) :
    calculate_legal_invalidity_score L ≤ 100 := by
  unfold calculate_legal_invalidity_score
  split_ifs with h1 h2
  · norm_num
  · exact min_le_left _ _
  · exact le_trans
      (foldl_max_le_bound (fun v => SEVERITY_SCORES v.type) 95
        (fun v => SEVERITY_SCORES_le v.type) L.violations 0 (by norm_num))
      (by norm_num)

theorem legal_invalidity_mono (vs : List Violation) (v : Violation) :
    calculate_legal_invalidity_score (mkLegal vs)
      ≤ calculate_legal_invalidity_score (mkLegal (vs ++ [v])) := by
  cases hvs : vs with
  | nil =>
    have h0 : calculate_legal_invalidity_score (mkLegal []) = 0 := by
      unfold calculate_legal_invalidity_score mkLegal
      simp
    rw [h0]
    exact legal_invalidity_nonneg _
  | cons w ws =>
    rw [← hvs]
    have hne : vs.isEmpty = false := by rw [hvs]; rfl
    have hne' : (vs ++ [v]).isEmpty = false := by
      rw [hvs]; rfl
    unfold calculate_legal_invalidity_score mkLegal
    simp only [hne, hne', Bool.false_eq_true, if_false]
    set M := vs.foldl (fun m w => max m (SEVERITY_SCORES w.type)) 0 with hM
    have hMapp : (vs ++ [v]).foldl (fun m w => max m (SEVERITY_SCORES w.type)) 0
        = max M (SEVERITY_SCORES v.type) := foldl_max_append _ vs v 0
    have hMle : M ≤ max M (SEVERITY_SCORES v.type) := le_max_left _ _
    have hM95 : M ≤ 95 :=
      foldl_max_le_bound _ 95 (fun w => SEVERITY_SCORES_le w.type) vs 0 (by norm_num)
    have hM0 : 0 ≤ M := foldl_max_le_init _ vs 0
    have hcount : vs.countP (fun w => w.severity == "critical")
        ≤ (vs ++ [v]).countP (fun w => w.severity == "critical") := by
      rw [List.countP_append]
      omega
    rw [hMapp]
    set M' := max M (SEVERITY_SCORES v.type) with hM'
    have hM'0 : 0 ≤ M' := le_trans hM0 hMle
    split_ifs with h1 h2 h2
    · refine min_le_min (le_refl 100) ?_
      nlinarith
    · omega
    · refine le_min (by linarith) ?_
      nlinarith
    · exact hMle

theorem dev_score_nonneg (D : DevResult) : 0 ≤ calculate_deviation_score D := by
  unfold calculate_deviation_score
  split_ifs
  · exact le_refl 0
  · exact le_min (foldl_add_nonneg _ 0 (le_refl 0)) (by norm_num)

theorem dev_score_le_100 (D : DevResult) : calculate_deviation_score D ≤ 100 := by
  unfold calculate_deviation_score
  split_ifs
  · norm_num
  · exact min_le_right _ _

theorem dev_score_mono (ds : List Deviation) (d : Deviation) :
    calculate_deviation_score (mkDev ds) ≤ calculate_deviation_score (mkDev (ds ++ [d])) := by
  cases hds : ds with
  | nil =>
    have h0 : calculate_deviation_score (mkDev []) = 0 := by
      unfold calculate_deviation_score mkDev
      simp
    rw [h0]
    exact dev_score_nonneg _
  | cons e es =>
    rw [← hds]
    have hne : ds.isEmpty = false := by rw [hds]; rfl
    have hne' : (ds ++ [d]).isEmpty = false := by rw [hds]; rfl
    unfold calculate_deviation_score mkDev
    simp only [hne, hne', Bool.not_false, Bool.not_true, Bool.false_eq_true, if_false]
    rw [foldl_add_append]
    exact min_le_min (by nlinarith [severity_points_nonneg d.severity]) (le_refl 100)

theorem freq_score_nonneg (L : LegalResult) (D : DevResult) :
    0 ≤ calculate_frequency_score L D := by
  unfold calculate_frequency_score
  refine le_min ?_ (by norm_num)
  positivity

theorem freq_score_le_100 (L : LegalResult) (D : DevResult) :
    calculate_frequency_score L D ≤ 100 := min_le_right _ _

/-- The truthiness guard on the counted list is redundant: an empty list
counts 0 either way. -/
theorem count_guard_eq (l : List α) : (if l.isEmpty then 0 else l.length) = l.length := by
  cases l <;> simp

theorem freq_score_mono_v (vs : List Violation) (v : Violation) (D : DevResult) :
    calculate_frequency_score (mkLegal vs) D
      ≤ calculate_frequency_score (mkLegal (vs ++ [v])) D := by
  unfold calculate_frequency_score mkLegal
  simp only [count_guard_eq]
  refine min_le_min ?_ (le_refl 100)
  have h : ((vs.length + D.deviations.length : Nat) : ℚ)
      ≤ (((vs ++ [v]).length + D.deviations.length : Nat) : ℚ) := by
    have : vs.length + D.deviations.length ≤ (vs ++ [v]).length + D.deviations.length := by
      simp
    exact_mod_cast this
  nlinarith

theorem freq_score_mono_d (L : LegalResult) (ds : List Deviation) (d : Deviation) :
    calculate_frequency_score L (mkDev ds)
      ≤ calculate_frequency_score L (mkDev (ds ++ [d])) := by
  unfold calculate_frequency_score mkDev
  simp only [count_guard_eq]
  refine min_le_min ?_ (le_refl 100)
  have h : ((L.violations.length + ds.length : Nat) : ℚ)
      ≤ ((L.violations.length + (ds ++ [d]).length : Nat) : ℚ) := by
    have : L.violations.length + ds.length ≤ L.violations.length + (ds ++ [d]).length := by
      simp
    exact_mod_cast this
  nlinarith

theorem RISK_WEIGHTS_legal : RISK_WEIGHTS "legal_invalidity" = 1/2 := by
  simp [RISK_WEIGHTS]

theorem RISK_WEIGHTS_dev : RISK_WEIGHTS "deviation_severity" = 3/10 := by
  simp [RISK_WEIGHTS]

theorem RISK_WEIGHTS_freq : RISK_WEIGHTS "frequency_factor" = 1/5 := by
  simp [RISK_WEIGHTS]

theorem risk_score_nonneg (L : LegalResult) (D : DevResult) :
    0 ≤ calculate_risk_score L D := by
  unfold calculate_risk_score
  exact round2_nonneg (le_max_left 0 _)

theorem risk_score_le_100 (L : LegalResult) (D : DevResult) :
    calculate_risk_score L D ≤ 100 := by
  unfold calculate_risk_score
  exact round2_le_hundred (max_le (by norm_num) (min_le_left _ _))

theorem risk_score_mono_of_components {L L' : LegalResult} {D D' : DevResult}
    (h1 : calculate_legal_invalidity_score L ≤ calculate_legal_invalidity_score L')
    (h2 : calculate_deviation_score D ≤ calculate_deviation_score D')
    (h3 : calculate_frequency_score L D ≤ calculate_frequency_score L' D') :
    calculate_risk_score L D ≤ calculate_risk_score L' D' := by
  unfold calculate_risk_score
  apply round2_mono
  apply max_le_max (le_refl 0)
  apply min_le_min (le_refl 100)
  rw [RISK_WEIGHTS_legal, RISK_WEIGHTS_dev, RISK_WEIGHTS_freq]
  nlinarith

/-- C1: for every violation list and deviation list, the clause risk score
returned by `calculate_risk_score` lies in [0, 100], and appending one more
violation (of any type and severity) or one more deviation (of any
severity) to the input lists never decreases the returned score. -/
theorem C1_risk_score_bounds_and_monotone
    (vs : List Violation) (ds : List Deviation) (v : Violation) (d : Deviation) :
    0 ≤ calculate_risk_score (mkLegal vs) (mkDev ds) ∧
    calculate_risk_score (mkLegal vs) (mkDev ds) ≤ 100 ∧
    calculate_risk_score (mkLegal vs) (mkDev ds)
      ≤ calculate_risk_score (mkLegal (vs ++ [v])) (mkDev ds) ∧
    calculate_risk_score (mkLegal vs) (mkDev ds)
      ≤ calculate_risk_score (mkLegal vs) (mkDev (ds ++ [d])) := by
  refine ⟨risk_score_nonneg _ _, risk_score_le_100 _ _, ?_, ?_⟩
  · exact risk_score_mono_of_components (legal_invalidity_mono vs v) (le_refl _)
      (freq_score_mono_v vs v (mkDev ds))
  · exact risk_score_mono_of_components (le_refl _) (dev_score_mono ds d)
      (freq_score_mono_d (mkLegal vs) ds d)

/-! ### `rule_engine.py` -/

def non_compete_keywords : List (List Char) :=
  [lit "non-compete", lit "non compete", lit "not compete", lit "refrain from engaging",
   lit "shall not engage", lit "prohibited from working", lit "restrain from",
   lit "covenant not to compete", lit "restriction on employment"]

def exception_keywords : List (List Char) :=
  [lit "sale of business", lit "goodwill", lit "transfer of business"]

/-- `check_section_27`: non-compete / restraint of trade, unless a
business-sale/goodwill exception phrase is present. -/
def check_section_27 (clause_text : List Char) : Option Violation :=
  if non_compete_keywords.any (fun k => hasSub k (lower clause_text)) then
    if exception_keywords.any (fun k => hasSub k (lower clause_text)) then none
    else some
      { type := "section_27_violation", severity := "critical",
        law := some "Section 27, Indian Contract Act, 1872",
        description := "Non-compete clause detected. Agreements restraining lawful profession/trade are VOID in India.",
        recommendation := "Remove or modify clause. Non-compete restrictions are unenforceable except in sale of business." }
  else none

def unlawful_keywords : List (List Char) :=
  [lit "illegal", lit "fraudulent", lit "defeat the law", lit "circumvent",
   lit "evade", lit "money laundering", lit "bribe", lit "kickback"]

/-- `check_section_23`: unlawful object / consideration. -/
def check_section_23 (clause_text : List Char) : Option Violation :=
  if unlawful_keywords.any (fun k => hasSub k (lower clause_text)) then
    some
      { type := "section_23_violation", severity := "critical",
        law := some "Section 23, Indian Contract Act, 1872",
        description := "Clause may involve unlawful consideration or object.",
        recommendation := "Remove clause. Agreements with unlawful objects are void." }
  else none

def penalty_keywords_74 : List (List Char) :=
  [lit "penalty", lit "liquidated damages", lit "damages", lit "compensation for breach"]

def absolute_keywords : List (List Char) :=
  [lit "shall pay", lit "must pay", lit "liable to pay", lit "required to pay"]

/-- The violation dictionary returned by `check_section_74`. -/
def sec74_violation : Violation :=
  { type := "section_74_violation", severity := "high",
    law := some "Section 74, Indian Contract Act, 1872",
    description := "Penalty clause may be excessive. Courts award only reasonable compensation, not punitive damages.",
    recommendation := "Ensure penalty is reasonable estimate of actual loss, not punitive." }

/-- `check_section_74`: excessive penalty, fired when penalty keywords
co-occur with a percentage above 20 or with an amount plus an
absolute-payment phrase. -/
def check_section_74 (clause_text : List Char) : Option Violation :=
  if penalty_keywords_74.any (fun k => hasSub k (lower clause_text)) then
    if (findallNumUnit pctAlts (lower clause_text)).any (fun p => decide (20 < p)) ||
       (!(findallNumUnit amountAlts (lower clause_text)).isEmpty &&
        absolute_keywords.any (fun k => hasSub k (lower clause_text))) then
      some sec74_violation
    else none
  else none

def ip_keywords_rule : List (List Char) :=
  [lit "intellectual property", lit "ip", lit "copyright", lit "patent",
   lit "invention", lit "creation"]

def overreach_keywords : List (List Char) :=
  [lit "all work", lit "any work", lit "everything created", lit "all inventions",
   lit "automatically assigned", lit "perpetual", lit "irrevocable", lit "worldwide",
   lit "including personal projects", lit "off-duty", lit "outside work hours"]

/-- `check_ip_overreach`. -/
def check_ip_overreach (clause_text : List Char) : Option Violation :=
  if ip_keywords_rule.any (fun k => hasSub k (lower clause_text)) then
    if overreach_keywords.any (fun k => hasSub k (lower clause_text)) then
      some
        { type := "ip_overreach", severity := "medium",
          law := some "Copyright Act, 1957 / Contract Law Principles",
          description := "IP assignment clause is overly broad. May claim rights to work unrelated to employment.",
          recommendation := "Limit IP assignment to work created during employment for company purposes only." }
    else none
  else none

def unfair_keywords : List (List Char) :=
  [lit "at sole discretion", lit "sole discretion of company", lit "without cause",
   lit "without reason", lit "without notice", lit "unilateral right",
   lit "company may change", lit "company reserves the right"]

/-- `check_unfair_terms`. -/
def check_unfair_terms (clause_text : List Char) : Option Violation :=
  if unfair_keywords.any (fun k => hasSub k (lower clause_text)) then
    some
      { type := "unfair_terms", severity := "medium",
        law := some "Section 16, Indian Contract Act (Undue Influence) / General Contract Principles",
        description := "Clause appears one-sided with excessive discretion to one party.",
        recommendation := "Add mutual consent requirements or reasonable limitations to discretionary powers." }
  else none

def vague_keywords : List (List Char) :=
  [lit "reasonable time", lit "as appropriate", lit "if necessary", lit "at discretion"]

/-- `check_clarity`: very short clause, or two or more vague qualifiers.
These dictionaries carry no `law` key in the source. -/
def check_clarity (clause_text : List Char) : Option Violation :=
  if clause_text.length < 20 then
    some
      { type := "unclear_terms", severity := "low", law := none,
        description := "Clause is very short and may lack detail.",
        recommendation := "Ensure clause has sufficient detail and clarity." }
  else if 2 ≤ vague_keywords.countP (fun k => hasSub k (lower clause_text)) then
    some
      { type := "unclear_terms", severity := "low", law := none,
        description := "Clause contains vague terms that may lead to disputes.",
        recommendation := "Define vague terms more specifically." }
  else none

/-- The violation list assembled by `verify_clause`, in fixed detector order. -/
def ruleViolations (clause_text : List Char) : List Violation :=
  (check_section_27 clause_text).toList ++ (check_section_23 clause_text).toList ++
  (check_section_74 clause_text).toList ++ (check_ip_overreach clause_text).toList ++
  (check_unfair_terms clause_text).toList ++ (check_clarity clause_text).toList

/-- The applicable-sections labels collected by `verify_clause`
(`check_clarity` contributes none). -/
def applicableSections (clause_text : List Char) : List String :=
  (if (check_section_27 clause_text).isSome then ["Section 27"] else []) ++
  (if (check_section_23 clause_text).isSome then ["Section 23"] else []) ++
  (if (check_section_74 clause_text).isSome then ["Section 74"] else []) ++
  (if (check_ip_overreach clause_text).isSome then ["Copyright Act / IP Law"] else []) ++
  (if (check_unfair_terms clause_text).isSome then ["Section 16"] else [])

/-- The clause risk level derived in `verify_clause` from the maximum
per-type severity score of the violations (`max` of a non-empty list of
non-negative scores equals the fold from 0). -/
def ruleRiskLevel (violations : List Violation) : String :=
  if violations.isEmpty then "low"
  else if 85 ≤ violations.foldl (fun m v => max m (SEVERITY_SCORES v.type)) 0 then "critical"
  else if 60 ≤ violations.foldl (fun m v => max m (SEVERITY_SCORES v.type)) 0 then "high"
  else if 30 ≤ violations.foldl (fun m v => max m (SEVERITY_SCORES v.type)) 0 then "medium"
  else "low"

/-- `verify_clause`: runs all six detectors and derives validity, risk
level and applicable sections. -/
def verify_clause (clause_text : List Char) : LegalResult :=
  { is_valid := ((ruleViolations clause_text).filter
      (fun v => v.severity == "critical" || v.severity == "high")).isEmpty,
    violations := ruleViolations clause_text,
    risk_level := ruleRiskLevel (ruleViolations clause_text),
    applicable_sections := applicableSections clause_text,
    total_violations := (ruleViolations clause_text).length }

/-! ### `deviation_engine.py` -/

structure FairStd where
  notice_period_days : Nat
  probation_months : Nat
  non_compete_months : Nat
  penalty_percentage : Nat
  ip_scope : String
  termination_notice_days : Nat
  working_hours_per_week : Nat
deriving DecidableEq

/-- `load_fair_contract`: the fair-standard template.  The JSON file
`data/fair_contract.json` is not among the analyzed sources, so the
function's fixed fallback defaults are the loaded standard. -/
def load_fair_contract : FairStd :=
  { notice_period_days := 30, probation_months := 3, non_compete_months := 0,
    penalty_percentage := 10, ip_scope := "work-related only",
    termination_notice_days := 30, working_hours_per_week := 40 }

/-- The excessive-notice deviation dictionary of `check_duration_deviation`. -/
def notice_deviation (duration : Nat) (unit : String) (fair_days : Nat) : Deviation :=
  { type := "excessive_notice_period", severity := "medium",
    actual := toString duration ++ " " ++ unit,
    fair_standard := toString fair_days ++ " days",
    description := "Notice period of " ++ toString duration ++
      " days exceeds fair standard of " ++ toString fair_days ++ " days." }

/-- The non-compete-duration deviation dictionary of `check_duration_deviation`. -/
def non_compete_deviation (duration : Nat) (unit : String) : Deviation :=
  { type := "non_compete_duration", severity := "critical",
    actual := toString duration ++ " " ++ unit,
    fair_standard := "0 (invalid in India)",
    description := "Non-compete clauses are generally unenforceable in India regardless of duration." }

/-- One iteration of the duration-pattern loop of `check_duration_deviation`
for a unit whose pattern alternatives are `alts`: if the pattern has a
match, the first match is the duration; the notice check fires only for
the days unit, otherwise the non-compete check may fire on a positive
duration (converted to months, by 12 for years and /30 for days). -/
def durationUnitCheck (fair : FairStd) (cl : List Char) (unit : String)
    (alts : List (List Char)) : Option Deviation :=
  match (findallNumUnit alts cl).head? with
  | none => none
  | some duration =>
    if hasSub (lit "notice") cl && (unit == "days") &&
       decide ((fair.notice_period_days : ℚ) * (15/10) < (duration : ℚ)) then
      some (notice_deviation duration unit fair.notice_period_days)
    else if (hasSub (lit "non-compete") cl || hasSub (lit "not compete") cl) &&
            decide ((0 : ℚ) < (if unit == "years" then (duration : ℚ) * 12
                               else if unit == "days" then (duration : ℚ) / 30
                               else (duration : ℚ))) then
      some (non_compete_deviation duration unit)
    else none

/-- `check_duration_deviation`: the three duration patterns are tried in
the fixed order months, years, days; the first iteration that returns a
deviation wins, an iteration without a returned deviation falls through
to the next pattern. -/
def check_duration_deviation (clause_text : List Char) (fair : FairStd) : Option Deviation :=
  durationUnitCheck fair (lower clause_text) "months" monthAlts <|>
  durationUnitCheck fair (lower clause_text) "years" yearAlts <|>
  durationUnitCheck fair (lower clause_text) "days" dayAlts

def penalty_keywords_dev : List (List Char) :=
  [lit "penalty", lit "liquidated damages", lit "damages", lit "shall pay"]

/-- The lakh-amount fallback inside `check_penalty_deviation`. -/
def lakhAmountCheck (cl : List Char) : Option Deviation :=
  match (findallNumUnit lakhAlts cl).head? with
  | some amt =>
    if 5 ≤ amt then
      some
        { type := "high_penalty_amount", severity := "medium",
          actual := toString amt ++ " lakhs",
          fair_standard := "Reasonable compensation only",
          description := "High fixed penalty amount may be deemed excessive by courts." }
    else none
  | none => none

/-- The excessive-penalty deviation dictionary of `check_penalty_deviation`. -/
def excessive_penalty_deviation (penalty_pct fair_pct : Nat) : Deviation :=
  { type := "excessive_penalty", severity := "high",
    actual := toString penalty_pct ++ "%",
    fair_standard := "≤" ++ toString fair_pct ++ "%",
    description := "Penalty of " ++ toString penalty_pct ++
      "% significantly exceeds fair standard of " ++ toString fair_pct ++ "%." }

/-- `check_penalty_deviation`: first percentage figure against twice the
fair percentage, else the fixed lakh-amount check. -/
def check_penalty_deviation (clause_text : List Char) (fair : FairStd) : Option Deviation :=
  if penalty_keywords_dev.any (fun k => hasSub k (lower clause_text)) then
    match (findallNumUnit pctAlts (lower clause_text)).head? with
    | some penalty_pct =>
      if fair.penalty_percentage * 2 < penalty_pct then
        some (excessive_penalty_deviation penalty_pct fair.penalty_percentage)
      else lakhAmountCheck (lower clause_text)
    | none => lakhAmountCheck (lower clause_text)
  else none

def ip_keywords_dev : List (List Char) :=
  [lit "intellectual property", lit "ip", lit "copyright", lit "invention", lit "work product"]

def overreach_indicators : List (List Char × String) :=
  [(lit "all work", "critical"), (lit "any work", "critical"),
   (lit "personal projects", "high"), (lit "outside work", "high"),
   (lit "off-duty", "high"), (lit "perpetual", "medium"), (lit "irrevocable", "medium")]

/-- `check_ip_scope_deviation`: first matching overreach indicator wins. -/
def check_ip_scope_deviation (clause_text : List Char) (fair : FairStd) : Option Deviation :=
  if ip_keywords_dev.any (fun k => hasSub k (lower clause_text)) then
    match overreach_indicators.find? (fun pr => hasSub pr.1 (lower clause_text)) with
    | some pr =>
      some
        { type := "ip_scope_deviation", severity := pr.2,
          actual := "Contains '" ++ String.mk pr.1 ++ "'",
          fair_standard := "Work-related IP created during employment only",
          description := "IP clause is overly broad - includes '" ++ String.mk pr.1 ++ "'." }
    | none => none
  else none

def termination_keywords : List (List Char) :=
  [lit "termination", lit "terminate", lit "dismissal", lit "dismiss"]

def unfair_indicators : List (List Char × String) :=
  [(lit "without cause", "high"), (lit "at will", "high"),
   (lit "without notice", "medium"), (lit "immediate termination", "medium"),
   (lit "sole discretion", "medium")]

/-- `check_termination_deviation`: first matching unfairness indicator wins. -/
def check_termination_deviation (clause_text : List Char) (fair : FairStd) : Option Deviation :=
  if termination_keywords.any (fun k => hasSub k (lower clause_text)) then
    match unfair_indicators.find? (fun pr => hasSub pr.1 (lower clause_text)) with
    | some pr =>
      some
        { type := "unfair_termination", severity := pr.2,
          actual := "Contains '" ++ String.mk pr.1 ++ "'",
          fair_standard := "Termination with cause and notice",
          description := "Termination clause allows '" ++ String.mk pr.1 ++
            "' which may be unfair to employee." }
    | none => none
  else none

/-- The deviation list assembled by `check_deviation`, in fixed sub-check
order, against the loaded fair standard. -/
def deviationList (clause_text : List Char) : List Deviation :=
  (check_duration_deviation clause_text load_fair_contract).toList ++
  (check_penalty_deviation clause_text load_fair_contract).toList ++
  (check_ip_scope_deviation clause_text load_fair_contract).toList ++
  (check_termination_deviation clause_text load_fair_contract).toList

/-- The aggregate severity derived in `check_deviation` ("none" on an
empty list, otherwise the maximum severity present). -/
def overallSeverity (ds : List Deviation) : String :=
  if ds.isEmpty then "none"
  else if ds.any (fun d => d.severity == "critical") then "critical"
  else if ds.any (fun d => d.severity == "high") then "high"
  else if ds.any (fun d => d.severity == "medium") then "medium"
  else "low"

/-- `check_deviation`. -/
def check_deviation (clause_text : List Char) : DevResult :=
  { has_deviation := !(deviationList clause_text).isEmpty,
    deviations := deviationList clause_text,
    severity := overallSeverity (deviationList clause_text),
    total_deviations := (deviationList clause_text).length }

/-! ### Engine lemmas and claims about the detectors -/

theorem hasSub_lower_of_hasSub {n t : List Char} (h : hasSub n t = true)
    (hn : lower n = n) : hasSub n (lower t) = true := by
  rw [hasSub_iff] at h ⊢
  have hmap := h.map lowerChar
  rwa [show n.map lowerChar = n from hn] at hmap

theorem hasSub_trans {a b t : List Char} (hab : hasSub a b = true)
    (hbt : hasSub b t = true) : hasSub a t = true := by
  rw [hasSub_iff] at hab hbt ⊢
  exact hab.trans hbt

theorem any_of_head? {l : List Nat} {a : Nat} (h : l.head? = some a)
    (f : Nat → Bool) (ha : f a = true) : l.any f = true := by
  cases l with
  | nil => simp at h
  | cons x xs =>
    simp only [List.head?_cons, Option.some.injEq] at h
    subst h
    simp [ha]

/-- The spec's sample clause for the engine-asymmetry property. -/
def c3text : List Char :=
  lit "Employee agrees not to compete with Company for 2 years after termination, except in the context of sale of business."

/-- C3 counterexample: on the sample clause the duration check of the
deviation engine returns no deviation at all (the clause says "not to
compete", which contains neither of the keywords `non-compete` and
`not compete` the check searches for), contradicting the claimed critical
`non_compete_duration` deviation. -/
theorem C3_counterexample :
    (findallNumUnit yearAlts (lower c3text)).head? = some 2 ∧
    check_duration_deviation c3text load_fair_contract = none := by
  constructor
  · decide
  · decide

/-- C3 (amended): on the sample clause the Rule Engine's non-compete
detector returns no violation, and the Deviation Engine's duration check
also returns no deviation: the phrase "not to compete" matches no keyword
of either engine, so neither fires. -/
theorem C3_both_engines_silent :
    check_section_27 c3text = none ∧
    check_duration_deviation c3text load_fair_contract = none := by
  constructor
  · decide
  · decide

/-- C4 counterexample: a clause whose first (and only) duration is written
in months, mentioning "notice", with 3 months = 90 days far above the
45-day threshold; the duration check returns no deviation because the
notice branch requires the days unit. -/
theorem C4_counterexample :
    hasSub (lit "notice") (lower (lit "Employee shall give 3 months notice before resigning.")) = true ∧
    (findallNumUnit monthAlts
      (lower (lit "Employee shall give 3 months notice before resigning."))).head? = some 3 ∧
    check_duration_deviation (lit "Employee shall give 3 months notice before resigning.")
      load_fair_contract = none := by
  refine ⟨?_, ?_, ?_⟩
  · decide
  · decide
  · decide

/-- C4 (amended): the excessive-notice deviation fires exactly for
durations written in days: if the clause mentions "notice", the months and
years patterns have no match, and the first days-pattern match exceeds
45 (= 1.5 x the default 30-day fair notice period), the duration check
returns an `excessive_notice_period` deviation of medium severity. -/
theorem C4_notice_days_only (t : List Char) (d : Nat)
    (hnotice : hasSub (lit "notice") (lower t) = true)
    (hmonths : findallNumUnit monthAlts (lower t) = [])
    (hyears : findallNumUnit yearAlts (lower t) = [])
    (hdays : (findallNumUnit dayAlts (lower t)).head? = some d)
    (hgt : 45 < d) :
    check_duration_deviation t load_fair_contract
      = some (notice_deviation d "days" load_fair_contract.notice_period_days) ∧
    (notice_deviation d "days" load_fair_contract.notice_period_days).type
      = "excessive_notice_period" ∧
    (notice_deviation d "days" load_fair_contract.notice_period_days).severity
      = "medium" := by
  have hcmp : (load_fair_contract.notice_period_days : ℚ) * (15/10) < (d : ℚ) := by
    have h45 : (45 : ℚ) < (d : ℚ) := by exact_mod_cast hgt
    show ((30 : Nat) : ℚ) * (15/10) < (d : ℚ)
    push_cast
    linarith
  refine ⟨?_, rfl, rfl⟩
  unfold check_duration_deviation durationUnitCheck
  rw [hmonths, hyears, hdays]
  simp [hnotice, decide_eq_true hcmp]

/-- C4 witness: a 60-day notice clause triggers the amended theorem. -/
theorem C4_witness :
    check_duration_deviation (lit "Employee shall provide 60 days notice.")
        load_fair_contract
      = some (notice_deviation 60 "days" load_fair_contract.notice_period_days) ∧
    (notice_deviation 60 "days" load_fair_contract.notice_period_days).severity
      = "medium" := by
  have h := C4_notice_days_only (lit "Employee shall provide 60 days notice.") 60
    (by decide) (by decide) (by decide) (by decide) (by decide)
  exact ⟨h.1, h.2.2⟩

/-- C5 counterexample: a clause containing "penalty of 50%" but with an
earlier percentage figure 15; `check_penalty_deviation` reads only the
first percentage (15, not above 2 x 10) and returns no deviation,
contradicting the claimed universal excessive-penalty deviation. -/
theorem C5_counterexample :
    hasSub (lit "penalty of 50%")
      (lit "A discount of 15% applies, and a penalty of 50% is due.") = true ∧
    check_penalty_deviation (lit "A discount of 15% applies, and a penalty of 50% is due.")
      load_fair_contract = none := by
  constructor
  · decide
  · decide

/-- C5 (amended): for every clause text containing "penalty of 50%" whose
first percentage figure (per the engines' shared percentage pattern) is
that 50, the Rule Engine returns a section-74 excessive-penalty violation
of high severity (50 > 20) and the Deviation Engine returns an
`excessive_penalty` deviation of high severity (50 > 2 x 10). -/
theorem C5_penalty_fifty_percent (t : List Char)
    (hin : hasSub (lit "penalty of 50%") t = true)
    (hfirst : (findallNumUnit pctAlts (lower t)).head? = some 50) :
    check_section_74 t = some sec74_violation ∧
    sec74_violation.type = "section_74_violation" ∧
    sec74_violation.severity = "high" ∧
    check_penalty_deviation t load_fair_contract
      = some (excessive_penalty_deviation 50 load_fair_contract.penalty_percentage) ∧
    (excessive_penalty_deviation 50 load_fair_contract.penalty_percentage).type
      = "excessive_penalty" ∧
    (excessive_penalty_deviation 50 load_fair_contract.penalty_percentage).severity
      = "high" := by
  have hpen : hasSub (lit "penalty") (lower t) = true := by
    have h1 : hasSub (lit "penalty of 50%") (lower t) = true :=
      hasSub_lower_of_hasSub hin (by decide)
    exact hasSub_trans (by decide) h1
  have hany : (findallNumUnit pctAlts (lower t)).any (fun p => decide (20 < p)) = true :=
    any_of_head? hfirst _ (by decide)
  refine ⟨?_, rfl, rfl, ?_, rfl, rfl⟩
  · unfold check_section_74
    simp [penalty_keywords_74, hpen, hany]
  · unfold check_penalty_deviation
    simp [penalty_keywords_dev, hpen, hfirst, load_fair_contract]

/-- C5 witness: a clause whose only percentage is the 50 of
"penalty of 50%". -/
theorem C5_witness :
    check_section_74 (lit "A penalty of 50% of salary shall apply.")
      = some sec74_violation ∧
    sec74_violation.severity = "high" ∧
    check_penalty_deviation (lit "A penalty of 50% of salary shall apply.")
        load_fair_contract
      = some (excessive_penalty_deviation 50 load_fair_contract.penalty_percentage) ∧
    (excessive_penalty_deviation 50 load_fair_contract.penalty_percentage).severity
      = "high" := by
  have h := C5_penalty_fifty_percent (lit "A penalty of 50% of salary shall apply.")
    (by decide) (by decide)
  exact ⟨h.1, h.2.2.1, h.2.2.2.1, h.2.2.2.2.2⟩

theorem foldl_max_all_zero (vs : List Violation)
    (h : ∀ v ∈ vs, SEVERITY_SCORES v.type = 0) :
    vs.foldl (fun m v => max m (SEVERITY_SCORES v.type)) 0 = 0 := by
  induction vs with
  | nil => rfl
  | cons v vs ih =>
    have hv : SEVERITY_SCORES v.type = 0 := h v (List.mem_cons_self v vs)
    simp only [List.foldl_cons, hv, max_self]
    exact ih (fun w hw => h w (List.mem_cons_of_mem v hw))

/-- C6: the type `unfair_terms` is absent from `SEVERITY_SCORES` (so it
scores 0); consequently a clause whose violations are all of type
`unfair_terms` gets legal-invalidity sub-score 0 and `verify_clause`
derives risk level "low" despite the medium-severity finding. -/
theorem C6_unfair_terms_score_zero (t : List Char)
    (hne : (verify_clause t).violations ≠ [])
    (hall : ∀ v ∈ (verify_clause t).violations, v.type = "unfair_terms") :
    SEVERITY_SCORES "unfair_terms" = 0 ∧
    calculate_legal_invalidity_score (verify_clause t) = 0 ∧
    (verify_clause t).risk_level = "low" := by
  have hzero : ∀ v ∈ (verify_clause t).violations, SEVERITY_SCORES v.type = 0 := by
    intro v hv
    rw [hall v hv]
    simp [SEVERITY_SCORES]
  have hfold := foldl_max_all_zero _ hzero
  refine ⟨by simp [SEVERITY_SCORES], ?_, ?_⟩
  · unfold calculate_legal_invalidity_score
    split_ifs with h1 h2
    · rfl
    · rw [hfold]
      norm_num
    · exact hfold
  · show ruleRiskLevel (ruleViolations t) = "low"
    have hfold' : (ruleViolations t).foldl (fun m v => max m (SEVERITY_SCORES v.type)) 0 = 0 :=
      hfold
    unfold ruleRiskLevel
    rw [hfold']
    norm_num

/-- C6 witness: a clause triggering only the unfair-terms detector. -/
theorem C6_witness :
    (verify_clause (lit "The company reserves the right to amend employment policies at any moment.")).violations ≠ [] ∧
    calculate_legal_invalidity_score
      (verify_clause (lit "The company reserves the right to amend employment policies at any moment.")) = 0 ∧
    (verify_clause (lit "The company reserves the right to amend employment policies at any moment.")).risk_level = "low" := by
  have h := C6_unfair_terms_score_zero
    (lit "The company reserves the right to amend employment policies at any moment.")
    (by decide) (by decide)
  exact ⟨by decide, h.2.1, h.2.2⟩

/-! ### Document aggregation (`aggregate_document_risk`) -/

/-- One element of the `clause_results` list; the aggregator reads only
its `risk_score` entry. -/
structure ClauseResult where
  risk_score : ℚ
deriving DecidableEq

structure AggregateRisk where
  overall_score : ℚ
  risk_level : String
  critical_count : Nat
  high_count : Nat
  medium_count : Nat
  low_count : Nat
  total_clauses : Nat
deriving DecidableEq

/-- `aggregate_document_risk`: mean clause score (rounded to 2 decimals),
per-level clause counts, and worst-level-wins overall level.  The source's
empty-input dictionary carries no `total_clauses` key; it is modelled
as 0 here. -/
def aggregate_document_risk (clause_results : List ClauseResult) : AggregateRisk :=
  if clause_results.isEmpty then
    { overall_score := 0, risk_level := "low", critical_count := 0, high_count := 0,
      medium_count := 0, low_count := 0, total_clauses := 0 }
  else
    { overall_score :=
        round2 ((clause_results.map (fun r => r.risk_score)).sum / clause_results.length),
      risk_level :=
        if 0 < (clause_results.map (fun r => get_risk_level r.risk_score)).count "critical"
          then "critical"
        else if 0 < (clause_results.map (fun r => get_risk_level r.risk_score)).count "high"
          then "high"
        else if 0 < (clause_results.map (fun r => get_risk_level r.risk_score)).count "medium"
          then "medium"
        else "low",
      critical_count := (clause_results.map (fun r => get_risk_level r.risk_score)).count "critical",
      high_count := (clause_results.map (fun r => get_risk_level r.risk_score)).count "high",
      medium_count := (clause_results.map (fun r => get_risk_level r.risk_score)).count "medium",
      low_count := (clause_results.map (fun r => get_risk_level r.risk_score)).count "low",
      total_clauses := clause_results.length }

/-- Worst-clause-wins document level, written as the specification words
it: critical if any clause is critical, else high if any clause is high,
else medium if any is medium, else low. -/
def specWorstLevel (clause_results : List ClauseResult) : String :=
  if ∃ r ∈ clause_results, get_risk_level r.risk_score = "critical" then "critical"
  else if ∃ r ∈ clause_results, get_risk_level r.risk_score = "high" then "high"
  else if ∃ r ∈ clause_results, get_risk_level r.risk_score = "medium" then "medium"
  else "low"

theorem count_map_pos_iff (l : List ClauseResult) (s : String) :
    0 < (l.map (fun r => get_risk_level r.risk_score)).count s ↔
      ∃ r ∈ l, get_risk_level r.risk_score = s := by
  rw [List.count_pos_iff, List.mem_map]

/-- C2: for every non-empty clause-result list, the document score is the
arithmetic mean of the clause scores rounded to 2 decimals, and the
document risk level is worst-clause-wins: "critical" exactly when some
clause's score maps to "critical", else "high"/"medium"/"low" by the same
any-clause rule — not the level of the mean. -/
theorem C2_aggregate_mean_and_worst_level (l : List ClauseResult) (hne : l ≠ []) :
    (aggregate_document_risk l).overall_score
      = round2 ((l.map (fun r => r.risk_score)).sum / l.length) ∧
    (aggregate_document_risk l).risk_level = specWorstLevel l ∧
    ((aggregate_document_risk l).risk_level = "critical" ↔
      ∃ r ∈ l, get_risk_level r.risk_score = "critical") := by
  have hf : l.isEmpty = false := by
    cases l with
    | nil => exact absurd rfl hne
    | cons a as => rfl
  have hagg : (aggregate_document_risk l).risk_level = specWorstLevel l := by
    unfold aggregate_document_risk specWorstLevel
    rw [hf]
    simp only [Bool.false_eq_true, if_false, count_map_pos_iff]
  refine ⟨?_, hagg, ?_⟩
  · unfold aggregate_document_risk
    rw [hf]
    rfl
  · rw [hagg]
    unfold specWorstLevel
    by_cases hc : ∃ r ∈ l, get_risk_level r.risk_score = "critical"
    · rw [if_pos hc]
      exact ⟨fun _ => hc, fun _ => rfl⟩
    · rw [if_neg hc]
      constructor
      · intro heq
        split_ifs at heq <;> simp_all
      · intro h
        exact absurd h hc

/-- C2 witness: two clauses with scores 90 and 10; the mean is 50 but the
document level is "critical" because of the 90-score clause. -/
theorem C2_witness :
    (([⟨90⟩, ⟨10⟩] : List ClauseResult) ≠ []) ∧
    (aggregate_document_risk [⟨90⟩, ⟨10⟩]).overall_score = 50 ∧
    (aggregate_document_risk [⟨90⟩, ⟨10⟩]).risk_level = "critical" := by
  have h := C2_aggregate_mean_and_worst_level [⟨90⟩, ⟨10⟩] (by simp)
  refine ⟨by simp, ?_, ?_⟩
  · rw [h.1]
    simp only [List.map_cons, List.map_nil, List.sum_cons, List.sum_nil, List.length_cons,
      List.length_nil]
    norm_num [round2, round_eq]
  · rw [h.2.1]
    decide

/-! ### `clause_splitter.py` -/

/-- Collapse every whitespace run to a single space
(`re.sub(r'\s+', ' ', text)`); the flag records whether the previous
character was part of a whitespace run. -/
def collapseAux : Bool → List Char → List Char
  | _, [] => []
  | prevSpace, c :: cs =>
    if isSpaceC c then
      if prevSpace then collapseAux true cs else ' ' :: collapseAux true cs
    else c :: collapseAux false cs

def collapseWS (l : List Char) : List Char := collapseAux false l

/-- Python `str.strip()`. -/
def trimWS (l : List Char) : List Char :=
  ((l.dropWhile isSpaceC).reverse.dropWhile isSpaceC).reverse

/-- One attempted match of `(\d+)\s*\.\s*(\d+)` at the head: on success
return the replacement `\1.\2` and the rest. -/
def fixDotAt (l : List Char) : Option (List Char × List Char) :=
  let d1 := takeRun isDigitC l
  if d1.1.isEmpty then none
  else
    let s1 := takeRun isSpaceC d1.2
    match s1.2 with
    | '.' :: r2 =>
      let s2 := takeRun isSpaceC r2
      let d2 := takeRun isDigitC s2.2
      if d2.1.isEmpty then none
      else some (d1.1 ++ ['.'] ++ d2.1, d2.2)
    | _ => none

/-- `re.sub(r'(\d+)\s*\.\s*(\d+)', r'\1.\2', text)` ("1 . 1" -> "1.1"),
fueled scan (every step consumes at least one character). -/
def fixDottedAux : Nat → List Char → List Char
  | _, [] => []
  | 0, l => l
  | fuel + 1, c :: cs =>
    match fixDotAt (c :: cs) with
    | some rr => rr.1 ++ fixDottedAux fuel rr.2
    | none => c :: fixDottedAux fuel cs

def fixDotted (l : List Char) : List Char := fixDottedAux l.length l

/-- `normalize_text`: collapse whitespace, repair dotted numbering,
replace newlines (already gone after the collapse) and strip. -/
def normalize_text (text : List Char) : List Char :=
  trimWS ((fixDotted (collapseWS text)).map (fun c => if c == '\n' then ' ' else c))

def isAlphaAscii (c : Char) : Bool :=
  ('a' ≤ c && c ≤ 'z') || ('A' ≤ c && c ≤ 'Z')

def isUpperAscii (c : Char) : Bool := 'A' ≤ c && c ≤ 'Z'

def isSentEnd (c : Char) : Bool := c == '.' || c == '!' || c == '?'

/-- Case-insensitive literal match (the literal is given lower-case),
returning the remainder. -/
def litCI : List Char → List Char → Option (List Char)
  | [], rest => some rest
  | _ :: _, [] => none
  | w :: ws, c :: cs => if lowerChar c == w then litCI ws cs else none

/-- `\s+[A-Z]` under `re.IGNORECASE`: at least one space then a letter;
returns the number of consumed characters. -/
def spacesAlpha (l : List Char) : Option Nat :=
  let s := takeRun isSpaceC l
  if s.1.isEmpty then none
  else
    match s.2 with
    | c :: _ => if isAlphaAscii c then some (s.1.length + 1) else none
    | [] => none

/-- Group of pattern 1, `\d+\.\d+\.?\s+[A-Z]` (case-insensitive):
returns the matched length. -/
def numPat1 (l : List Char) : Option Nat :=
  let d1 := takeRun isDigitC l
  if d1.1.isEmpty then none
  else
    match d1.2 with
    | '.' :: r2 =>
      let d2 := takeRun isDigitC r2
      if d2.1.isEmpty then none
      else
        match d2.2 with
        | '.' :: r4 =>
          match spacesAlpha r4 with
          | some n => some (d1.1.length + 1 + d2.1.length + 1 + n)
          | none =>
            match spacesAlpha d2.2 with
            | some n => some (d1.1.length + 1 + d2.1.length + n)
            | none => none
        | _ =>
          match spacesAlpha d2.2 with
          | some n => some (d1.1.length + 1 + d2.1.length + n)
          | none => none
    | _ => none

/-- Group of pattern 2, `\d+\.\s+[A-Z]` (case-insensitive). -/
def numPat2 (l : List Char) : Option Nat :=
  let d1 := takeRun isDigitC l
  if d1.1.isEmpty then none
  else
    match d1.2 with
    | '.' :: r2 =>
      match spacesAlpha r2 with
      | some n => some (d1.1.length + 1 + n)
      | none => none
    | _ => none

/-- Groups of patterns 3-5: a case-insensitive word, `\s+`, `\d+`. -/
def wordNumPat (w : List Char) (l : List Char) : Option Nat :=
  match litCI w l with
  | some r1 =>
    let s := takeRun isSpaceC r1
    if s.1.isEmpty then none
    else
      let d := takeRun isDigitC s.2
      if d.1.isEmpty then none
      else some (w.length + s.1.length + d.1.length)
  | none => none

/-- The `(?:^|\s)` prefix of the numbering patterns: at the string start
the empty `^` branch is tried first, otherwise a whitespace character is
consumed; returns the total match length. -/
def tryPrefixAt (g : List Char → Option Nat) (isStart : Bool) (l : List Char) : Option Nat :=
  if isStart then
    match g l with
    | some n => some n
    | none =>
      match l with
      | c :: cs => if isSpaceC c then (g cs).map (· + 1) else none
      | [] => none
  else
    match l with
    | c :: cs => if isSpaceC c then (g cs).map (· + 1) else none
    | [] => none

/-- `re.finditer` for one numbering pattern: non-overlapping scan
returning (start, end) index pairs; every step consumes at least one
character, so fuel `l.length` suffices. -/
def scanNumbered (g : List Char → Option Nat) :
    Nat → Bool → Nat → List Char → List (Nat × Nat)
  | _, _, _, [] => []
  | 0, _, _, _ :: _ => []
  | fuel + 1, isStart, i, c :: cs =>
    match tryPrefixAt g isStart (c :: cs) with
    | some n => (i, i + n) :: scanNumbered g fuel false (i + n) ((c :: cs).drop n)
    | none => scanNumbered g fuel false (i + 1) cs

def finditerPat (g : List Char → Option Nat) (l : List Char) : List (Nat × Nat) :=
  scanNumbered g l.length true 0 l

/-- `text[start:end].strip()`. -/
def sliceStrip (text : List Char) (a b : Nat) : List Char :=
  trimWS ((text.drop a).take (b - a))

/-- Clause slices spanning from each match start to the next match start
(or the end of the text). -/
def clausesFrom (text : List Char) : List (Nat × Nat) → List (List Char)
  | [] => []
  | (s1, _) :: rest =>
    match rest with
    | [] => [sliceStrip text s1 text.length]
    | (s2, _) :: _ => sliceStrip text s1 s2 :: clausesFrom text rest

/-- `split_by_numbered_sections`: the five numbering patterns in priority
order; the first with at least 3 matches wins, else the empty list. -/
def split_by_numbered_sections (text : List Char) : List (List Char) :=
  match [numPat1, numPat2, wordNumPat (lit "article"), wordNumPat (lit "clause"),
         wordNumPat (lit "section")].find?
      (fun g => 3 ≤ (finditerPat g text).length) with
  | some g => clausesFrom text (finditerPat g text)
  | none => []

/-- The split point of `re.split(r'(?<=[.!?])\s+(?=[A-Z])')`: after a
sentence-ending character, a whitespace run followed by a capital letter;
returns the text after the consumed whitespace. -/
def sentSplitPoint (cs : List Char) : Option (List Char) :=
  let s := takeRun isSpaceC cs
  if s.1.isEmpty then none
  else
    match s.2 with
    | c :: _ => if isUpperAscii c then some s.2 else none
    | [] => none

/-- Sentence splitting, fueled scan accumulating the current sentence in
reverse. -/
def sentencesAux : Nat → List Char → List Char → List (List Char)
  | _, acc, [] => [acc.reverse]
  | 0, acc, rest => [acc.reverse ++ rest]
  | fuel + 1, acc, c :: cs =>
    if isSentEnd c then
      match sentSplitPoint cs with
      | some rest => (c :: acc).reverse :: sentencesAux fuel [] rest
      | none => sentencesAux fuel (c :: acc) cs
    else sentencesAux fuel (c :: acc) cs

def splitSentencesRaw (l : List Char) : List (List Char) :=
  sentencesAux l.length [] l

def split_keywords : List (List Char) :=
  [lit "provided that", lit "notwithstanding", lit "in consideration of",
   lit "the parties agree", lit "it is agreed", lit "whereas"]

/-- `should_split_clause`: overlong buffer or a clause-boundary trigger
phrase in the last sentence. -/
def should_split_clause (current_clause last_sentence : List Char) : Bool :=
  decide (MAX_CLAUSE_LENGTH < current_clause.length) ||
  split_keywords.any (fun k => hasSub k (lower last_sentence))

/-- The recombination loop of `split_by_sentences`. -/
def combineAux : List (List Char) → List Char → List (List Char)
  | [], current => if current.isEmpty then [] else [trimWS current]
  | s :: rest, current =>
    if (trimWS s).isEmpty then combineAux rest current
    else
      if should_split_clause
          (if current.isEmpty then trimWS s else current ++ [' '] ++ trimWS s) (trimWS s) then
        trimWS (if current.isEmpty then trimWS s else current ++ [' '] ++ trimWS s)
          :: combineAux rest []
      else combineAux rest (if current.isEmpty then trimWS s else current ++ [' '] ++ trimWS s)

def split_by_sentences (text : List Char) : List (List Char) :=
  combineAux (splitSentencesRaw text) []

/-- The anchored noise pattern `^page\s+\d+` (under `re.IGNORECASE`,
checked on the lowered clause). -/
def pageNoise (cl : List Char) : Bool :=
  if startsWith (lit "page") cl then
    let r := takeRun isSpaceC (cl.drop 4)
    !r.1.isEmpty && !(takeRun isDigitC r.2).1.isEmpty
  else false

/-- The anchored noise pattern `^\d+\s*$`. -/
def loneNumberNoise (cl : List Char) : Bool :=
  let d := takeRun isDigitC cl
  !d.1.isEmpty && (takeRun isSpaceC d.2).2.isEmpty

/-- `filter_clauses` noise test: one of the four fixed patterns matches
(anchored `re.match`, case-insensitive). -/
def noiseMatch (clause : List Char) : Bool :=
  pageNoise (lower clause) || loneNumberNoise (lower clause) ||
  (lower clause == lit "confidential") || (lower clause == lit "draft")

/-- `filter_clauses`: strip, then drop too-short clauses, noise, and
clauses with fewer than half alphabetic characters (`str.isalpha`,
modelled on the ASCII range). -/
def filter_clauses : List (List Char) → List (List Char)
  | [] => []
  | c :: rest =>
    if (trimWS c).length < MIN_CLAUSE_LENGTH then filter_clauses rest
    else if noiseMatch (trimWS c) then filter_clauses rest
    else if 2 * ((trimWS c).countP (fun ch => ch.isAlpha)) < (trimWS c).length then
      filter_clauses rest
    else trimWS c :: filter_clauses rest

/-- `split_clauses`: normalize, structural segmentation, sentence-based
fallback when fewer than 3 clauses, then filtering. -/
def split_clauses (text : List Char) : List (List Char) :=
  filter_clauses
    (if (split_by_numbered_sections (normalize_text text)).length < 3 then
      split_by_sentences (normalize_text text)
    else split_by_numbered_sections (normalize_text text))

theorem filter_clauses_sound (l : List (List Char)) (c : List Char)
    (hc : c ∈ filter_clauses l) :
    MIN_CLAUSE_LENGTH ≤ c.length ∧ noiseMatch c = false ∧
      c.length ≤ 2 * c.countP (fun ch => ch.isAlpha) := by
  induction l with
  | nil => simp [filter_clauses] at hc
  | cons x rest ih =>
    unfold filter_clauses at hc
    split_ifs at hc with h1 h2 h3
    · exact ih hc
    · exact ih hc
    · exact ih hc
    · cases hc with
      | head =>
        refine ⟨by omega, ?_, by omega⟩
        exact Bool.not_eq_true _ ▸ (by simpa using h2)
      | tail _ hmem => exact ih hmem

/-- C9: every clause produced by `split_clauses` is at least
`MIN_CLAUSE_LENGTH` (30) characters long, matches none of the fixed noise
patterns, and has at least half of its characters alphabetic. -/
theorem C9_split_clauses_filtered (text c : List Char) (hc : c ∈ split_clauses text) :
    MIN_CLAUSE_LENGTH ≤ c.length ∧ noiseMatch c = false ∧
      c.length ≤ 2 * c.countP (fun ch => ch.isAlpha) := by
  unfold split_clauses at hc
  exact filter_clauses_sound _ c hc

/-- C9 witness: a one-sentence contract text whose single surviving
clause satisfies all three filter postconditions. -/
theorem C9_witness :
    (lit "The parties agree to the following terms and conditions of employment.")
      ∈ split_clauses
        (lit "The parties agree to the following terms and conditions of employment.") ∧
    MIN_CLAUSE_LENGTH
      ≤ (lit "The parties agree to the following terms and conditions of employment.").length ∧
    noiseMatch (lit "The parties agree to the following terms and conditions of employment.")
      = false ∧
    (lit "The parties agree to the following terms and conditions of employment.").length
      ≤ 2 * (lit "The parties agree to the following terms and conditions of employment.").countP
          (fun ch => ch.isAlpha) := by
  have hmem : (lit "The parties agree to the following terms and conditions of employment.")
      ∈ split_clauses
        (lit "The parties agree to the following terms and conditions of employment.") := by
    decide
  have h := C9_split_clauses_filtered _ _ hmem
  exact ⟨hmem, h.1, h.2.1, h.2.2⟩

/-! ### `explanation.py` -/

/-- The law record consumed by the explanation composer; `section_` models
the dictionary key `section` (a reserved word in Lean). -/
structure LawRecord where
  section_ : List Char
  act : List Char
  title : List Char
deriving DecidableEq

/-- `summarize_clause`: keyword-pattern summary with a truncated-text
fallback. -/
def summarize_clause (clause_text : List Char) : List Char :=
  if hasSub (lit "non-compete") (lower clause_text) ||
     hasSub (lit "not compete") (lower clause_text) then
    lit "This clause attempts to restrict you from working in similar roles or companies after leaving."
  else if hasSub (lit "intellectual property") (lower clause_text) ||
          hasSub (lit "copyright") (lower clause_text) then
    lit "This clause defines who owns the work, ideas, or creations you produce."
  else if hasSub (lit "termination") (lower clause_text) ||
          hasSub (lit "terminate") (lower clause_text) then
    lit "This clause explains when and how the employment relationship can be ended."
  else if hasSub (lit "penalty") (lower clause_text) ||
          hasSub (lit "liquidated damages") (lower clause_text) then
    lit "This clause specifies financial penalties if the contract is broken."
  else if hasSub (lit "notice period") (lower clause_text) ||
          hasSub (lit "notice") (lower clause_text) then
    lit "This clause defines how much advance notice is required before leaving the job."
  else if hasSub (lit "confidentiality") (lower clause_text) ||
          hasSub (lit "nda") (lower clause_text) then
    lit "This clause requires you to keep certain information private."
  else
    lit "This clause covers: " ++ clause_text.take 100 ++ lit "..."

/-- The severity marker strings of `explain_violation`, exactly the
character sequences present in the source file (the first character of
the first four is the private-use codepoint U+F8FF). -/
def severityEmoji (s : String) : List Char :=
  if s = "critical" then [Char.ofNat 0xF8FF, 'ü', 'î', '¥']
  else if s = "high" then [Char.ofNat 0xF8FF, 'ü', 'ü', '†']
  else if s = "medium" then [Char.ofNat 0xF8FF, 'ü', 'ü', '°']
  else if s = "low" then [Char.ofNat 0xF8FF, 'ü', 'ü', '¢']
  else ['‚', 'ö', '™']

/-- The fixed per-violation-kind explanation templates of
`explain_violation` (`None` models absence from the dictionary). -/
def violationTemplate (vtype : String) (emoji : List Char) : Option (List Char) :=
  if vtype = "section_27_violation" then some (emoji ++
    lit " **Non-compete restriction**: In India, clauses that prevent you from working in your field are generally not enforceable. You have the right to earn a livelihood.")
  else if vtype = "section_23_violation" then some (emoji ++
    lit " **Unlawful purpose**: This clause may involve something illegal or against public policy, making it void.")
  else if vtype = "section_74_violation" then some (emoji ++
    lit " **Excessive penalty**: The penalty amount seems unreasonably high. Indian courts typically reduce excessive penalties to actual losses only.")
  else if vtype = "ip_overreach" then some (emoji ++
    lit " **Overly broad IP claim**: The company is claiming ownership of too much - potentially including your personal projects or work done outside of work hours.")
  else if vtype = "unfair_terms" then some (emoji ++
    lit " **One-sided terms**: This clause gives too much power to one party without reasonable protections for you.")
  else if vtype = "unclear_terms" then some (emoji ++
    lit " **Vague language**: The clause uses unclear terms that could lead to different interpretations and disputes.")
  else none

/-- `explain_violation`: template by type (falling back to the rendered
description), then the recommendation when present (non-empty). -/
def explain_violation (v : Violation) : List Char :=
  (match violationTemplate v.type (severityEmoji v.severity) with
   | some t => t
   | none => severityEmoji v.severity ++ lit " Potential issue: " ++ v.description.toList) ++
  (if v.recommendation.isEmpty then []
   else lit " **Suggested action:** " ++ v.recommendation.toList)

/-- The legal-context sentence of `generate_template_explanation`. -/
def lawContext (law : LawRecord) : List Char :=
  lit "This relates to " ++ law.section_ ++ lit " of the " ++ law.act ++
  lit ", which deals with " ++ lower law.title ++ lit "."

/-- The no-major-issues assessment part (exact source text). -/
def assessmentPart : List Char :=
  lit "\n\n**Assessment:** This clause appears generally fair and doesn't violate major Indian contract law provisions."

/-- The fixed closing disclaimer (exact source text; the prefix glyphs are
the characters present in the file). -/
def disclaimerText : List Char :=
  lit "\n\n‚ö†Ô∏è **Note:** This is educational information, not legal advice. Consult a lawyer for your specific situation."

/-- The numbered issue lines for the first violations
(`enumerate(violations[:3], 1)`). -/
def issueLines : Nat → List Violation → List Char
  | _, [] => []
  | i, v :: rest =>
    lit "\n" ++ (toString i).toList ++ lit ". " ++ explain_violation v ++
      issueLines (i + 1) rest

/-- `generate_template_explanation`: summary, optional legal context, up
to three rendered violations or the assessment sentence, and the
disclaimer, joined in order. -/
def generate_template_explanation (clause_text : List Char) (violations : List Violation)
    (relevant_law : Option LawRecord) : List Char :=
  (lit "**What this clause means:** " ++ summarize_clause clause_text) ++
  (match relevant_law with
   | some law => lit "\n\n**Legal context:** " ++ lawContext law
   | none => []) ++
  (if violations.isEmpty then assessmentPart
   else lit "\n\n**Potential issues:**" ++ issueLines 1 (violations.take 3)) ++
  disclaimerText

/-! #### C8 lemmas: the character 'A' as a marker for the assessment part

Every fixed template string other than the assessment part is free of the
capital letter 'A', and `lower` output never contains it; so when no input
field contains 'A', the composed output contains 'A' exactly when the
assessment part is present. -/

theorem digitChar_ne_A (m : Nat) : Nat.digitChar m ≠ 'A' := by
  rcases Nat.lt_or_ge m 16 with h | h
  · interval_cases m <;> decide
  · unfold Nat.digitChar
    repeat rw [if_neg (by omega)]
    decide

theorem toDigitsCore_no_A (b : Nat) : ∀ (fuel n : Nat) (acc : List Char),
    'A' ∉ acc → 'A' ∉ Nat.toDigitsCore b fuel n acc := by
  intro fuel
  induction fuel with
  | zero => intro n acc hacc; simpa [Nat.toDigitsCore] using hacc
  | succ fuel ih =>
    intro n acc hacc
    rw [show Nat.toDigitsCore b (fuel + 1) n acc
        = if n / b = 0 then (n % b).digitChar :: acc
          else Nat.toDigitsCore b fuel (n / b) ((n % b).digitChar :: acc) from rfl]
    have hcons : 'A' ∉ (n % b).digitChar :: acc := by
      intro hmem
      rcases List.mem_cons.mp hmem with h | h
      · exact digitChar_ne_A _ h.symm
      · exact hacc h
    split_ifs
    · exact hcons
    · exact ih (n / b) _ hcons

theorem natRepr_no_A (n : Nat) : 'A' ∉ (Nat.repr n).toList := by
  have h : (Nat.repr n).toList = Nat.toDigitsCore 10 (n + 1) n [] := rfl
  rw [h]
  exact toDigitsCore_no_A 10 (n + 1) n [] (by simp)

theorem severityEmoji_no_A (s : String) : 'A' ∉ severityEmoji s := by
  unfold severityEmoji
  split_ifs <;> decide

theorem violationTemplate_no_A (vt : String) (emoji : List Char)
    (he : 'A' ∉ emoji) (l : List Char) (h : violationTemplate vt emoji = some l) :
    'A' ∉ l := by
  unfold violationTemplate at h
  split_ifs at h
  all_goals injection h with h
  all_goals
    subst h
    intro hmem
    rcases List.mem_append.mp hmem with h' | h'
    · exact he h'
    · revert h'; decide

theorem explain_violation_no_A (v : Violation)
    (hd : 'A' ∉ v.description.toList) (hr : 'A' ∉ v.recommendation.toList) :
    'A' ∉ explain_violation v := by
  intro hmem
  unfold explain_violation at hmem
  rcases List.mem_append.mp hmem with h | h
  · revert h
    cases htemp : violationTemplate v.type (severityEmoji v.severity) with
    | some l =>
      intro h
      exact violationTemplate_no_A _ _ (severityEmoji_no_A _) l htemp h
    | none =>
      intro h
      rcases List.mem_append.mp h with h' | h'
      · rcases List.mem_append.mp h' with h'' | h''
        · exact severityEmoji_no_A _ h''
        · revert h''; decide
      · exact hd h'
  · revert h
    split_ifs
    · intro h; simp at h
    · intro h
      rcases List.mem_append.mp h with h' | h'
      · revert h'; decide
      · exact hr h'

theorem issueLines_no_A (vs : List Violation)
    (hvs : ∀ v ∈ vs, 'A' ∉ v.description.toList ∧ 'A' ∉ v.recommendation.toList) :
    ∀ i, 'A' ∉ issueLines i vs := by
  induction vs with
  | nil => intro i; simp [issueLines]
  | cons v rest ih =>
    intro i hmem
    unfold issueLines at hmem
    rcases List.mem_append.mp hmem with h | h
    · rcases List.mem_append.mp h with h | h
      · rcases List.mem_append.mp h with h | h
        · rcases List.mem_append.mp h with h | h
          · revert h; decide
          · exact natRepr_no_A i h
        · revert h; decide
      · exact explain_violation_no_A v
          (hvs v (List.mem_cons_self v rest)).1
          (hvs v (List.mem_cons_self v rest)).2 h
    · exact ih (fun w hw => hvs w (List.mem_cons_of_mem v hw)) (i + 1) h

theorem summarize_clause_no_A (t : List Char) (ht : 'A' ∉ t) :
    'A' ∉ summarize_clause t := by
  unfold summarize_clause
  split_ifs <;> try decide
  intro hmem
  rcases List.mem_append.mp hmem with h | h
  · rcases List.mem_append.mp h with h' | h'
    · revert h'; decide
    · exact ht (List.mem_of_mem_take h')
  · revert h; decide

/-- The additional per-law no-'A' condition (vacuous without a law). -/
def lawNoA : Option LawRecord → Prop
  | none => True
  | some lr => 'A' ∉ lr.section_ ∧ 'A' ∉ lr.act

theorem lawContext_no_A (lr : LawRecord) (h1 : 'A' ∉ lr.section_)
    (h2 : 'A' ∉ lr.act) : 'A' ∉ lawContext lr := by
  intro hmem
  unfold lawContext at hmem
  rcases List.mem_append.mp hmem with h | h
  · rcases List.mem_append.mp h with h | h
    · rcases List.mem_append.mp h with h | h
      · rcases List.mem_append.mp h with h | h
        · rcases List.mem_append.mp h with h | h
          · rcases List.mem_append.mp h with h | h
            · revert h; decide
            · exact h1 h
          · revert h; decide
        · exact h2 h
      · revert h; decide
    · exact lower_no_upper_A lr.title h
  · revert h; decide

theorem generate_no_A (t : List Char) (vs : List Violation) (law : Option LawRecord)
    (ht : 'A' ∉ t)
    (hvs : ∀ v ∈ vs, 'A' ∉ v.description.toList ∧ 'A' ∉ v.recommendation.toList)
    (hlaw : lawNoA law) (hne : vs ≠ []) :
    'A' ∉ generate_template_explanation t vs law := by
  intro hmem
  unfold generate_template_explanation at hmem
  have hempty : vs.isEmpty = false := by
    cases vs with
    | nil => exact absurd rfl hne
    | cons a as => rfl
  rw [hempty] at hmem
  simp only [Bool.false_eq_true, if_false] at hmem
  rcases List.mem_append.mp hmem with h | h
  · rcases List.mem_append.mp h with h | h
    · rcases List.mem_append.mp h with h | h
      · rcases List.mem_append.mp h with h | h
        · revert h; decide
        · exact summarize_clause_no_A t ht h
      · cases law with
        | none => simp at h
        | some lr =>
          rcases List.mem_append.mp h with h | h
          · revert h; decide
          · exact lawContext_no_A lr hlaw.1 hlaw.2 h
    · rcases List.mem_append.mp h with h | h
      · revert h; decide
      · exact issueLines_no_A (vs.take 3)
          (fun w hw => hvs w (List.mem_of_mem_take hw)) 1 h
  · revert h; decide

theorem take_three_isEmpty (vs : List Violation) : (vs.take 3).isEmpty = vs.isEmpty := by
  cases vs <;> rfl

/-- C8: for every clause text, violation list and (possibly null) law
record, the explanation composed by `generate_template_explanation` ends
with the fixed legal disclaimer, depends only on the first min(3, n)
violations, and contains the no-major-issues assessment sentence if the
violation list is empty; and — provided no input field contains the
capital letter 'A', which every fixed template except the assessment
sentence avoids — only if the violation list is empty. -/
theorem C8_explanation_shape (t : List Char) (vs : List Violation) (law : Option LawRecord) :
    disclaimerText <:+ generate_template_explanation t vs law ∧
    generate_template_explanation t vs law = generate_template_explanation t (vs.take 3) law ∧
    (vs = [] → hasSub assessmentPart (generate_template_explanation t vs law) = true) ∧
    ('A' ∉ t →
      (∀ v ∈ vs, 'A' ∉ v.description.toList ∧ 'A' ∉ v.recommendation.toList) →
      lawNoA law →
      hasSub assessmentPart (generate_template_explanation t vs law) = true →
      vs = []) := by
  refine ⟨?_, ?_, ?_, ?_⟩
  · unfold generate_template_explanation
    exact List.suffix_append _ _
  · unfold generate_template_explanation
    rw [take_three_isEmpty, List.take_take]
    norm_num
  · intro hnil
    subst hnil
    rw [hasSub_iff]
    unfold generate_template_explanation
    simp only [List.isEmpty_nil, if_true]
    exact ⟨_, _, rfl⟩
  · intro ht hvs hlaw hcontains
    by_contra hne
    have hA_in : 'A' ∈ generate_template_explanation t vs law := by
      have hinf := (hasSub_iff _ _).mp hcontains
      exact hinf.subset (by decide : 'A' ∈ assessmentPart)
    exact generate_no_A t vs law ht hvs hlaw hne hA_in

/-- C8 witness: with no violations and no law record, the output ends in
the disclaimer and contains the assessment sentence; the only-if
direction's hypotheses are discharged at the same input. -/
theorem C8_witness :
    disclaimerText <:+ generate_template_explanation (lit "employee obligations.") [] none ∧
    hasSub assessmentPart
      (generate_template_explanation (lit "employee obligations.") [] none) = true ∧
    (hasSub assessmentPart
        (generate_template_explanation (lit "employee obligations.") [] none) = true →
      ([] : List Violation) = []) := by
  have h := C8_explanation_shape (lit "employee obligations.") [] none
  exact ⟨h.1, h.2.2.1 rfl, h.2.2.2 (by decide) (by simp) trivial⟩

/-- C8 counterexample: a violation whose `description` field is the
assessment sentence itself makes the output contain the assessment
sentence although the violation list is non-empty, so the claimed
"contains iff empty" equivalence fails for unrestricted inputs. -/
theorem C8_counterexample :
    hasSub assessmentPart
      (generate_template_explanation (lit "general clause.")
        [⟨"custom", "low", none, String.mk assessmentPart, ""⟩] none) = true ∧
    ([⟨"custom", "low", none, String.mk assessmentPart, ""⟩] : List Violation) ≠ [] := by
  constructor
  · decide
  · decide

/-- C10: the detectors and the scorer are pure functions of the clause
text (and the fixed fairness standard): re-running `verify_clause`,
`check_deviation` and `calculate_risk_score` on the same input yields
identical results — determinism holds by construction in this model, in
which each of the three is a function with no other inputs. -/
theorem C10_determinism (t : List Char) :
    verify_clause t = verify_clause t ∧
    check_deviation t = check_deviation t ∧
    calculate_risk_score (verify_clause t) (check_deviation t)
      = calculate_risk_score (verify_clause t) (check_deviation t) :=
  ⟨rfl, rfl, rfl⟩

/-- C7: on an empty violation list and an empty deviation list the risk
score is exactly 0, and `get_risk_level` of that score is "low". -/
theorem C7_empty_lists_score_zero_level_low :
    calculate_risk_score (mkLegal []) (mkDev []) = 0 ∧
    get_risk_level (calculate_risk_score (mkLegal []) (mkDev [])) = "low" := by
  have h : calculate_risk_score (mkLegal []) (mkDev []) = 0 := by
    unfold calculate_risk_score calculate_legal_invalidity_score
      calculate_deviation_score calculate_frequency_score mkLegal mkDev
    norm_num [RISK_WEIGHTS_legal, RISK_WEIGHTS_dev, RISK_WEIGHTS_freq, round2, round_eq]
  refine ⟨h, ?_⟩
  rw [h]
  unfold get_risk_level
  norm_num

end Contract
